import Mathlib

/-!
Shallow embedding of `wptrunner/executors/base.py`: the reftest resolution
engine (`RefTestImplementation`), the screenshot cache it maintains, the
testharness result converter and the generic `TestExecutor.run_test`
error-normalisation path.

Python-to-Lean conventions used throughout:
* Screenshots and URLs are `String`s; `hashlib.sha1(...).hexdigest()` is an
  abstract digest function `Env.sha1hex` supplied by the environment.
* `self.executor.screenshot(url, timeout)` is the pure function
  `Env.screenshot`; its Python return convention `(success, data)` is the
  inductive `CaptureOutcome`.
* The shared dict `self.screenshot_cache` is an association list from url to
  `(hash, Option screenshot)`; Python dict assignment is `insertCache`
  (replace-or-append) and membership/lookup is `lookupCache`.
* `self.message` (a Python list of formatted strings) is kept as a list of
  structured `Entry` values together with the rendering function
  `Entry.render`; `"\n".join(self.message)` becomes
  `String.intercalate "\n" (msgs.map Entry.render)`.
* The state record `RState` additionally carries two ghost instrumentation
  fields that Python does not store but that the theorems quantify over:
  `resolved` (the (url, hash) pairs returned by successful `get_hash` calls,
  appended exactly where Python appends the `"%s %s"` message line) and
  `calls` (every invocation of the external screenshot capability).
* The `while stack:` loop is the fuel-indexed `runLoop`; Python seeds the
  stack with `reversed(test.references)` and pops from the end, which is
  embedded as a stack in declaration order popped from the front.  The
  Python local variables `nodes`, `screenshots`, `relation` that leak out of
  the loop body are made explicit as the `Option LastInfo` argument, updated
  on every completed iteration; `runLoop` also returns its final value so
  the after-loop diagnostic code can be stated.  A run of the loop body that
  would raise `NameError` (empty stack, no iteration ever ran) or `KeyError`
  (cache lookup in `retake_screenshot`) is the explicit result
  `RunResult.nameError` / `RunResult.keyError`.
-/

/-- The two reference relations; Python carries them as the strings
`"=="` and `"!="` (`is_pass` asserts no other value occurs). -/
inductive RefRelation where
  | eq
  | ne
deriving DecidableEq, Repr

/-- The string form of a relation, as used in Python's message formatting
and in the `log_data` diagnostic payload. -/
def RefRelation.toStr : RefRelation → String
  | .eq => "=="
  | .ne => "!="

/-- A test or reference node: `url`, `timeout`, and the ordered list of
candidate reference subtrees `references` (node plus relation), mirroring
`test.references` / `node.references` in `run_test`. -/
inductive Node where
  | mk (url : String) (timeout : Nat) (references : List (Node × RefRelation))

/-- `node.url`. -/
def Node.url : Node → String
  | .mk u _ _ => u

/-- `node.timeout`. -/
def Node.timeout : Node → Nat
  | .mk _ t _ => t

/-- `node.references`. -/
def Node.references : Node → List (Node × RefRelation)
  | .mk _ _ r => r

/-- Result of `self.executor.screenshot(url, timeout)`: Python's
`(True, screenshot_data)` or `(False, (status, message))`. -/
inductive CaptureOutcome where
  | success (data : String)
  | failure (status msg : String)
deriving DecidableEq, Repr

/-- The environment a `RefTestImplementation` runs in: the executor's
screenshot capability, the sha1 hex digest function, and
`self.timeout_multiplier`. -/
structure Env where
  screenshot : String → Nat → CaptureOutcome
  sha1hex : String → String
  timeoutMultiplier : Nat

/-- One element of `self.message`: either the `"%s %s" % (url, hash)` line
appended by `get_hash`, or the `"Testing %s %s %s"` line appended by
`is_pass`. -/
inductive Entry where
  | capture (url hash : String)
  | testing (lhs rhs : String) (rel : RefRelation)
deriving DecidableEq, Repr

/-- Render an `Entry` to the exact string Python appends to `self.message`. -/
def Entry.render : Entry → String
  | .capture u h => u ++ " " ++ h
  | .testing l r rel => "Testing " ++ l ++ " " ++ rel.toStr ++ " " ++ r

/-- The `(url, hash)` pair of a capture entry; `none` on testing entries. -/
def Entry.captureData : Entry → Option (String × String)
  | .capture u h => some (u, h)
  | .testing _ _ _ => none

/-- Mutable state of a `RefTestImplementation`: the shared screenshot cache
(url ↦ (hash, optional screenshot)) and the per-run message list, plus the
two ghost instrumentation fields `resolved` and `calls` (see the file
header). -/
structure RState where
  cache : List (String × String × Option String)
  message : List Entry
  resolved : List (String × String)
  calls : List (String × Nat)
deriving Repr

/-- `url in self.screenshot_cache` / `self.screenshot_cache[url]`. -/
def lookupCache : List (String × String × Option String) → String →
    Option (String × Option String)
  | [], _ => none
  | (u, e) :: rest, url => if u = url then some e else lookupCache rest url

/-- `self.screenshot_cache[url] = entry`: replace the binding if present,
otherwise add it. -/
def insertCache : List (String × String × Option String) → String →
    String × Option String → List (String × String × Option String)
  | [], url, e => [(url, e)]
  | (u, e0) :: rest, url, e =>
      if u = url then (url, e) :: rest else (u, e0) :: insertCache rest url e

/-- Result of `get_hash`: Python's `(True, (hash, screenshot-or-None))` or
the early `(False, (status, message))` return on capture failure. -/
inductive GetHashResult where
  | ok (hash : String) (shot : Option String)
  | err (status msg : String)
deriving DecidableEq, Repr

namespace RefTestImplementation

/-- `RefTestImplementation.get_hash(url, timeout)`.  Scales the timeout by
the multiplier; on a cache miss captures a screenshot (recording the call in
the ghost `calls` field), returns the failure data unchanged on capture
failure, and otherwise hashes the screenshot, stores `(hash, None)` in the
cache and returns the hash together with the fresh screenshot; on a cache
hit returns the stored entry.  Every successful return appends the
`url hash` line to `self.message` (and the pair to the ghost `resolved`). -/
def get_hash (env : Env) (st : RState) (url : String) (timeout : Nat) :
    RState × GetHashResult :=
  let t := timeout * env.timeoutMultiplier
  match lookupCache st.cache url with
  | none =>
      let st0 := { st with calls := st.calls ++ [(url, t)] }
      match env.screenshot url t with
      | .failure s m => (st0, .err s m)
      | .success data =>
          let h := env.sha1hex data
          ({ st0 with
              cache := insertCache st0.cache url (h, none),
              message := st0.message ++ [.capture url h],
              resolved := st0.resolved ++ [(url, h)] },
           .ok h (some data))
  | some (h, shot) =>
      ({ st with
          message := st.message ++ [.capture url h],
          resolved := st.resolved ++ [(url, h)] },
       .ok h shot)

/-- `RefTestImplementation.is_pass(lhs_hash, rhs_hash, relation)`: appends
the `Testing lhs relation rhs` line and evaluates the relation. -/
def is_pass (st : RState) (lhs rhs : String) (rel : RefRelation) :
    RState × Bool :=
  ({ st with message := st.message ++ [.testing lhs rhs rel] },
   match rel with
   | .eq => lhs == rhs
   | .ne => lhs != rhs)

/-- Result of `retake_screenshot`: success with the fresh screenshot data,
capture failure with the failure data, or the `KeyError` Python raises when
the url is absent from the cache. -/
inductive RetakeResult where
  | ok (data : String)
  | fail (status msg : String)
  | keyErr
deriving DecidableEq, Repr

/-- `RefTestImplementation.retake_screenshot(node)`: re-captures the
screenshot with the scaled timeout; on success re-reads the cached hash for
the url (raising `KeyError` when absent) and stores `(cached hash, data)`
back into the cache, returning the data. -/
def retake_screenshot (env : Env) (st : RState) (node : Node) :
    RState × RetakeResult :=
  let t := node.timeout * env.timeoutMultiplier
  let st0 := { st with calls := st.calls ++ [(node.url, t)] }
  match env.screenshot node.url t with
  | .failure s m => (st0, .fail s m)
  | .success data =>
      match lookupCache st0.cache node.url with
      | none => (st0, .keyErr)
      | some (hashVal, _) =>
          ({ st0 with cache := insertCache st0.cache node.url (hashVal, some data) },
           .ok data)

end RefTestImplementation

/-- The Python loop variables that outlive the `while stack:` loop in
`run_test`: the last popped `nodes` pair, the screenshot slots filled for
it, and its relation. -/
structure LastInfo where
  nodeA : Node
  nodeB : Node
  shot0 : Option String
  shot1 : Option String
  rel : RefRelation

/-- The `log_data` list built on the FAIL path:
`[{url, screenshot}, relation-string, {url, screenshot}]`. -/
structure LogData where
  url0 : String
  shot0 : Option String
  relStr : String
  url1 : String
  shot1 : Option String
deriving DecidableEq, Repr

/-- The dict `run_test` returns: `status`, `message` (absent key for PASS is
`none`) and the optional `extra` payload present only on the FAIL path. -/
structure VerdictDict where
  status : String
  message : Option String
  extra : Option LogData
deriving DecidableEq, Repr

/-- Outcome of a `run_test` call: a returned dict, the `NameError` raised
when the loop never ran and the diagnostic code reads unbound variables, the
`KeyError` raised from `retake_screenshot`, or exhaustion of the embedding's
fuel (never reached with fuel ≥ the number of loop iterations). -/
inductive RunResult where
  | dict (d : VerdictDict)
  | nameError
  | keyError
  | fuelOut
deriving DecidableEq, Repr

/-- One stack element: the `((nodeA, nodeB), relation)` triple. -/
abbrev StackItem := (Node × Node) × RefRelation

namespace RefTestImplementation

/-- Outcome of one screenshot slot of the FAIL diagnostic: the (possibly
re-captured) screenshot, or the `KeyError` escaping `retake_screenshot`. -/
inductive UpSlot where
  | got (shot : Option String)
  | keyErr

/-- One step of the FAIL-path loop
`if screenshot is None: success, screenshot = self.retake_screenshot(node); if success: ...`:
a retained screenshot is kept, an absent one is re-captured best-effort
(an unsuccessful retake leaves the slot `none`). -/
def upgradeSlot (env : Env) (st : RState) (node : Node) (shot : Option String) :
    RState × UpSlot :=
  match shot with
  | some s => (st, .got (some s))
  | none =>
      match retake_screenshot env st node with
      | (st', .ok data) => (st', .got (some data))
      | (st', .fail _ _) => (st', .got none)
      | (st', .keyErr) => (st', .keyErr)

/-- The code after the `while` loop in `run_test`: backfill both screenshot
slots of the last-evaluated pair, build `log_data`, and return the FAIL dict
whose message joins the accumulated `self.message` with newlines. -/
def failPath (env : Env) (st : RState) (l : LastInfo) :
    RunResult × RState × Option LastInfo :=
  match upgradeSlot env st l.nodeA l.shot0 with
  | (st1, .keyErr) => (.keyError, st1, some l)
  | (st1, .got sh0) =>
      match upgradeSlot env st1 l.nodeB l.shot1 with
      | (st2, .keyErr) => (.keyError, st2, some l)
      | (st2, .got sh1) =>
          (.dict ⟨"FAIL",
                  some (String.intercalate "\n" (st2.message.map Entry.render)),
                  some ⟨l.nodeA.url, sh0, l.rel.toStr, l.nodeB.url, sh1⟩⟩,
           st2, some l)

/-- The `while stack:` loop of `run_test`, fuel-indexed.  Each iteration
pops the front item, resolves both hashes (returning the capture failure's
status and message as the verdict on failure), tests the relation, and on a
pass either returns PASS (no further references) or pushes `nodeB`'s
references; on a failed relation it falls through to the next stack item.
When the stack empties, the diagnostic code runs on the leaked loop
variables (`failPath`), or raises `NameError` if no iteration ever ran. -/
def runLoop (env : Env) :
    Nat → RState → List StackItem → Option LastInfo →
    RunResult × RState × Option LastInfo
  | _, st, [], none => (.nameError, st, none)
  | _, st, [], some l => failPath env st l
  | 0, st, _ :: _, l => (.fuelOut, st, l)
  | Nat.succ fuel, st, ((a, b), rel) :: rest, l =>
      match get_hash env st a.url a.timeout with
      | (st1, .err s m) => (.dict ⟨s, some m, none⟩, st1, l)
      | (st1, .ok ha _sa) =>
          match get_hash env st1 b.url b.timeout with
          | (st2, .err s m) => (.dict ⟨s, some m, none⟩, st2, l)
          | (st2, .ok hb _sb) =>
              match is_pass st2 ha hb rel with
              | (st3, true) =>
                  match b.references with
                  | [] => (.dict ⟨"PASS", none, none⟩, st3, some ⟨a, b, _sa, _sb, rel⟩)
                  | c :: cs =>
                      runLoop env fuel st3
                        (((c :: cs).map (fun it => ((b, it.1), it.2))) ++ rest)
                        (some ⟨a, b, _sa, _sb, rel⟩)
              | (st3, false) =>
                  runLoop env fuel st3 rest (some ⟨a, b, _sa, _sb, rel⟩)

/-- `RefTestImplementation.run_test(test)`: reset `self.message` (and the
ghost `resolved` log), seed the stack with the test's references so the
first-declared candidate is tried first, and run the search loop. -/
def run_test (env : Env) (fuel : Nat) (st : RState) (test : Node) :
    RunResult × RState × Option LastInfo :=
  runLoop env fuel { st with message := [], resolved := [] }
    (test.references.map (fun it => ((test, it.1), it.2))) none

/-- The hypothesis of the short-circuit property, stated operationally over
the source's `get_hash`/`is_pass`: the chain that always follows the
first-declared candidate from `(a, b, rel)` downward resolves both hashes
successfully at every level, satisfies every relation, and bottoms out on a
node with no further references.  `some st'` carries the state after
walking exactly that chain and nothing else. -/
def chainRun (env : Env) :
    Nat → RState → Node → Node → RefRelation → Option RState
  | 0, _, _, _, _ => none
  | Nat.succ fuel, st, a, b, rel =>
      match get_hash env st a.url a.timeout with
      | (_, .err _ _) => none
      | (st1, .ok ha _) =>
          match get_hash env st1 b.url b.timeout with
          | (_, .err _ _) => none
          | (st2, .ok hb _) =>
              match is_pass st2 ha hb rel with
              | (st3, true) =>
                  match b.references with
                  | [] => some st3
                  | (c, rel2) :: _ => chainRun env fuel st3 b c rel2
              | (_, false) => none

end RefTestImplementation

/-- The cache invariant of the spec: every stored entry's signature comes
from a successful capture — there exist a timeout and screenshot data for
which the external capture succeeds and whose digest is the stored hash. -/
def CacheOK (env : Env) (c : List (String × String × Option String)) : Prop :=
  ∀ url h s, lookupCache c url = some (h, s) →
    ∃ t data, env.screenshot url t = .success data ∧ h = env.sha1hex data

/-! ### The testharness result converter (`TestharnessResultConverter`) -/

/-- The part of a wptrunner test object the converter reads: `test.url`
(its identity). -/
structure THTest where
  url : String

/-- One element of the structured payload's `tests` list. -/
structure RawSubtest where
  name : String
  status : Nat
  message : Option String
deriving DecidableEq, Repr

/-- The structured self-report payload: `{test, status, message, tests}`. -/
structure RawResult where
  test : String
  status : Nat
  message : Option String
  tests : List RawSubtest
deriving DecidableEq, Repr

/-- `test.result_cls(status, message)`. -/
structure TestResultR where
  status : String
  message : Option String
deriving DecidableEq, Repr

/-- `test.subtest_result_cls(name, status, message)`. -/
structure SubtestResultR where
  name : String
  status : String
  message : Option String
deriving DecidableEq, Repr

/-- The exceptions the converter can raise: the `assert` on a mismatched
test url (with its formatted message), or the `KeyError` of indexing
`harness_codes`/`test_codes` with an unknown integer status. -/
inductive ConvErr where
  | assertionError (msg : String)
  | keyError
deriving DecidableEq, Repr

/-- `TestharnessResultConverter.harness_codes`: `{0: OK, 1: ERROR,
2: TIMEOUT}`; any other key raises `KeyError` (`none`). -/
def harness_codes (n : Nat) : Option String :=
  if n = 0 then some "OK"
  else if n = 1 then some "ERROR"
  else if n = 2 then some "TIMEOUT"
  else none

/-- `TestharnessResultConverter.test_codes`: `{0: PASS, 1: FAIL,
2: TIMEOUT, 3: NOTRUN}`; any other key raises `KeyError` (`none`). -/
def test_codes (n : Nat) : Option String :=
  if n = 0 then some "PASS"
  else if n = 1 then some "FAIL"
  else if n = 2 then some "TIMEOUT"
  else if n = 3 then some "NOTRUN"
  else none

/-- The list comprehension over `result["tests"]`: build each subtest
result, propagating the `KeyError` of an unknown status code. -/
def convertSubtests : List RawSubtest → Option (List SubtestResultR)
  | [] => some []
  | s :: rest =>
      match test_codes s.status, convertSubtests rest with
      | some c, some rs => some (⟨s.name, c, s.message⟩ :: rs)
      | _, _ => none

/-- `TestharnessResultConverter.__call__(test, result)`: assert the payload
is for this test's url (formatted `AssertionError` otherwise), then map the
overall status through `harness_codes` and every subtest through
`test_codes`, preserving names and messages. -/
def testharness_result_converter (test : THTest) (result : RawResult) :
    Except ConvErr (TestResultR × List SubtestResultR) :=
  if result.test = test.url then
    match harness_codes result.status with
    | none => .error .keyError
    | some hc =>
        match convertSubtests result.tests with
        | none => .error .keyError
        | some subs => .ok (⟨hc, result.message⟩, subs)
  else
    .error (.assertionError
      ("Got results from " ++ result.test ++ ", expected " ++ test.url))

/-! ### `TestExecutor.run_test` error normalisation -/

/-- The attributes of an exception object that
`TestExecutor.result_from_exception` reads: the optional `status` attribute
(`none` models `hasattr(e, "status")` being false), the `message` attribute
with `getattr`'s default `""`, and the formatted stack trace
`traceback.format_exc(e)` of its raise site. -/
structure ExcM where
  status : Option String
  message : String
  trace : String

/-- The part of a test object `result_from_exception` reads:
`test.result_cls.statuses`, the valid outcome codes of its result type. -/
structure TestSpecM where
  statuses : List String

/-- `TestExecutor.result_from_exception(test, e)`: use the exception's
`status` attribute when present and valid for this result type, otherwise
`ERROR`; the message is the exception's own message (followed by a newline
when non-empty) concatenated with the formatted stack trace.  Returns an
empty subtest list. -/
def result_from_exception (test : TestSpecM) (e : ExcM) :
    TestResultR × List SubtestResultR :=
  let status :=
    match e.status with
    | some s => if s ∈ test.statuses then s else "ERROR"
    | none => "ERROR"
  let message := (if e.message = "" then "" else e.message ++ "\n") ++ e.trace
  (⟨status, some message⟩, [])

/-- What `self.do_test(test)` does when called: returns a result pair,
returns the `Stop` sentinel, or raises an exception. -/
inductive DoTestOut where
  | res (r : TestResultR × List SubtestResultR)
  | stop
  | exc (e : ExcM)

/-- Observable outcome of `TestExecutor.run_test`: `stopped` means the
`Stop` sentinel was returned verbatim and no `test_ended` message was sent;
`ended r` means exactly one `("test_ended", test, r)` message was sent to
the runner. -/
inductive RunOut where
  | stopped
  | ended (r : TestResultR × List SubtestResultR)
deriving Repr

namespace TestExecutor

/-- `TestExecutor.run_test(test)`: call `do_test`, converting any escaping
exception through `result_from_exception`; return the `Stop` sentinel
verbatim (no notification), otherwise notify the runner of the result. -/
def run_test (test : TestSpecM) (outcome : DoTestOut) : RunOut :=
  match outcome with
  | .stop => .stopped
  | .res r => .ended r
  | .exc e => .ended (result_from_exception test e)

end TestExecutor

/-- The correspondence maintained between the rendered message log and the
ghost `resolved` field: the capture entries of `self.message`, in order, are
exactly the `(url, hash)` pairs resolved so far. -/
def MsgRes (st : RState) : Prop :=
  st.message.filterMap Entry.captureData = st.resolved

/-! ### Helper lemmas about the cache primitives -/

theorem lookupCache_insertCache (c : List (String × String × Option String))
    (url : String) (e : String × Option String) (u : String) :
    lookupCache (insertCache c url e) u =
      if url = u then some e else lookupCache c u := by
  induction c with
  | nil =>
      by_cases h : url = u <;> simp [insertCache, lookupCache, h]
  | cons p rest ih =>
      obtain ⟨u0, e0⟩ := p
      by_cases h0 : u0 = url
      · subst h0
        by_cases h1 : u0 = u <;> simp [insertCache, lookupCache, h1]
      · by_cases h1 : u0 = u
        · subst h1
          have : ¬ url = u0 := fun hh => h0 hh.symm
          simp [insertCache, lookupCache, h0, this]
        · simp [insertCache, lookupCache, h0, h1, ih]

namespace RefTestImplementation

/-- On a capture failure `get_hash` changes no observable state (only the
ghost `calls` log grows) and the returned status/message are the
screenshot failure's own. -/
theorem get_hash_err {env : Env} {st st' : RState} {url : String}
    {t : Nat} {s m : String}
    (h : get_hash env st url t = (st', .err s m)) :
    st'.cache = st.cache ∧ st'.message = st.message ∧
    st'.resolved = st.resolved ∧
    env.screenshot url (t * env.timeoutMultiplier) = .failure s m ∧
    lookupCache st.cache url = none := by
  unfold get_hash at h
  simp only [] at h
  rcases hl : lookupCache st.cache url with _ | ⟨h0, shot⟩
  · rw [hl] at h
    simp only [] at h
    rcases hs : env.screenshot url (t * env.timeoutMultiplier) with data | ⟨s0, m0⟩
    · rw [hs] at h; simp at h
    · rw [hs] at h
      simp only [] at h
      injection h with h1 h2
      injection h2 with hs1 hs2
      subst h1; subst hs1; subst hs2
      exact ⟨rfl, rfl, rfl, rfl, rfl⟩
  · rw [hl] at h
    simp only [] at h
    injection h with h1 h2
    exact absurd h2 (by simp)

/-- A successful `get_hash` appends exactly one `url hash` line to the
message log (and the pair to the ghost `resolved` log). -/
theorem get_hash_ok_msg {env : Env} {st st' : RState} {url : String}
    {t : Nat} {hh : String} {shot : Option String}
    (h : get_hash env st url t = (st', .ok hh shot)) :
    st'.message = st.message ++ [.capture url hh] ∧
    st'.resolved = st.resolved ++ [(url, hh)] := by
  unfold get_hash at h
  simp only [] at h
  rcases hl : lookupCache st.cache url with _ | ⟨h0, shot0⟩
  · rw [hl] at h
    simp only [] at h
    rcases hs : env.screenshot url (t * env.timeoutMultiplier) with data | ⟨s0, m0⟩
    · rw [hs] at h
      simp only [] at h
      injection h with h1 h2
      injection h2 with hh1 hh2
      subst h1; subst hh1
      exact ⟨rfl, rfl⟩
    · rw [hs] at h
      simp only [] at h
      injection h with h1 h2
      exact absurd h2 (by simp)
  · rw [hl] at h
    simp only [] at h
    injection h with h1 h2
    injection h2 with hh1 hh2
    subst h1; subst hh1
    exact ⟨rfl, rfl⟩

/-- A successful `get_hash` either hits the cache (cache unchanged, hash is
the stored one) or inserts the digest of a freshly captured screenshot. -/
theorem get_hash_ok_cache {env : Env} {st st' : RState} {url : String}
    {t : Nat} {hh : String} {shot : Option String}
    (h : get_hash env st url t = (st', .ok hh shot)) :
    (st'.cache = st.cache ∧ lookupCache st.cache url = some (hh, shot)) ∨
    (∃ data, env.screenshot url (t * env.timeoutMultiplier) = .success data ∧
      hh = env.sha1hex data ∧ shot = some data ∧
      st'.cache = insertCache st.cache url (hh, none) ∧
      lookupCache st.cache url = none) := by
  unfold get_hash at h
  simp only [] at h
  rcases hl : lookupCache st.cache url with _ | ⟨h0, shot0⟩
  · rw [hl] at h
    simp only [] at h
    rcases hs : env.screenshot url (t * env.timeoutMultiplier) with data | ⟨s0, m0⟩
    · rw [hs] at h
      simp only [] at h
      injection h with h1 h2
      injection h2 with hh1 hh2
      subst h1; subst hh1; subst hh2
      exact Or.inr ⟨data, rfl, rfl, rfl, rfl, rfl⟩
    · rw [hs] at h
      simp only [] at h
      injection h with h1 h2
      exact absurd h2 (by simp)
  · rw [hl] at h
    simp only [] at h
    injection h with h1 h2
    injection h2 with hh1 hh2
    subst h1; subst hh1; subst hh2
    exact Or.inl ⟨rfl, rfl⟩

/-- Case analysis of `retake_screenshot`: it never touches the message or
resolved logs, and the cache changes only on the success path, where the
stored hash is kept and only the screenshot slot is replaced. -/
theorem retake_screenshot_cases {env : Env} {st st' : RState} {node : Node}
    {r : RetakeResult}
    (h : retake_screenshot env st node = (st', r)) :
    st'.message = st.message ∧ st'.resolved = st.resolved ∧
    ((∃ s m, r = .fail s m ∧ st'.cache = st.cache ∧
        env.screenshot node.url (node.timeout * env.timeoutMultiplier) = .failure s m) ∨
     (r = .keyErr ∧ st'.cache = st.cache) ∨
     (∃ data h0 s0, r = .ok data ∧
        env.screenshot node.url (node.timeout * env.timeoutMultiplier) = .success data ∧
        lookupCache st.cache node.url = some (h0, s0) ∧
        st'.cache = insertCache st.cache node.url (h0, some data))) := by
  unfold retake_screenshot at h
  simp only [] at h
  rcases hs : env.screenshot node.url (node.timeout * env.timeoutMultiplier)
    with data | ⟨s0, m0⟩
  · rw [hs] at h
    simp only [] at h
    rcases hl : lookupCache st.cache node.url with _ | ⟨h0, shot0⟩
    · rw [hl] at h
      simp only [] at h
      injection h with h1 h2
      subst h1; subst h2
      exact ⟨rfl, rfl, Or.inr (Or.inl ⟨rfl, rfl⟩)⟩
    · rw [hl] at h
      simp only [] at h
      injection h with h1 h2
      subst h1; subst h2
      exact ⟨rfl, rfl, Or.inr (Or.inr ⟨data, h0, shot0, rfl, rfl, rfl, rfl⟩)⟩
  · rw [hs] at h
    simp only [] at h
    injection h with h1 h2
    subst h1; subst h2
    exact ⟨rfl, rfl, Or.inl ⟨s0, m0, rfl, rfl, rfl⟩⟩

end RefTestImplementation

/-! ### Concrete fixtures used by witnesses and counterexamples -/

/-- The empty implementation state: empty cache, logs reset. -/
def rstEmpty : RState := ⟨[], [], [], []⟩

/-- An environment whose captures always succeed and return the same bytes
for every url, with the identity digest. -/
def envSame : Env := ⟨fun _ _ => .success "img", id, 1⟩

/-- An environment whose captures always succeed with bytes determined by
the url (so distinct urls hash differently under the identity digest). -/
def envByUrl : Env := ⟨fun u _ => .success ("D" ++ u), id, 1⟩

/-- An environment whose captures always fail with a TIMEOUT. -/
def envTimeout : Env := ⟨fun _ _ => .failure "EXTERNAL-TIMEOUT" "boom", id, 1⟩

/-- A leaf reference node. -/
def nodeB : Node := .mk "b" 2 []

/-- A test whose single candidate requires equality with `nodeB`. -/
def testEqB : Node := .mk "a" 1 [(nodeB, .eq)]

/-- A test whose single candidate requires inequality with `nodeB`. -/
def testNeB : Node := .mk "a" 1 [(nodeB, .ne)]

/-- A test with no references at all. -/
def testNoRefs : Node := .mk "t" 1 []

/-! ### Small evaluation lemmas for `get_hash` -/

namespace RefTestImplementation

/-- Evaluation of `get_hash` on a cache miss with a successful capture. -/
theorem get_hash_miss_success (env : Env) (st : RState) (url : String)
    (t : Nat) (data : String)
    (hl : lookupCache st.cache url = none)
    (hs : env.screenshot url (t * env.timeoutMultiplier) = .success data) :
    get_hash env st url t =
      (⟨insertCache st.cache url (env.sha1hex data, none),
        st.message ++ [.capture url (env.sha1hex data)],
        st.resolved ++ [(url, env.sha1hex data)],
        st.calls ++ [(url, t * env.timeoutMultiplier)]⟩,
       .ok (env.sha1hex data) (some data)) := by
  unfold get_hash
  simp only [hl, hs]

/-- Evaluation of `get_hash` on a cache hit. -/
theorem get_hash_hit (env : Env) (st : RState) (url : String) (t : Nat)
    (h : String) (shot : Option String)
    (hl : lookupCache st.cache url = some (h, shot)) :
    get_hash env st url t =
      (⟨st.cache, st.message ++ [.capture url h],
        st.resolved ++ [(url, h)], st.calls⟩,
       .ok h shot) := by
  unfold get_hash
  simp only [hl]

end RefTestImplementation

/-! ### Claim theorems -/

/-- C10: a test with an empty reference list never produces a verdict:
the search loop body never runs, and the diagnostic code after the loop
reads the never-bound loop variables, so `run_test` ends in `NameError`
instead of PASS or FAIL (for any fuel, any environment and any starting
cache). -/
theorem run_test_empty_references_name_error :
    ∀ (env : Env) (fuel : Nat) (st : RState) (test : Node),
    test.references = [] →
    RefTestImplementation.run_test env fuel st test =
      (.nameError, { st with message := [], resolved := [] }, none) := by
  intro env fuel st test h
  unfold RefTestImplementation.run_test
  rw [h]
  cases fuel <;> rfl

/-- Witness for C10: the concrete reference-free test ends in `NameError`. -/
theorem run_test_empty_references_name_error_witness :
    RefTestImplementation.run_test envSame 3 rstEmpty testNoRefs =
      (.nameError, rstEmpty, none) :=
  run_test_empty_references_name_error envSame 3 rstEmpty testNoRefs rfl

/-- C4: if a capture fails for either node of the pair currently being
resolved, `run_test`'s loop returns immediately with a verdict carrying
that failure's status and message, no matter how many untried candidate
branches remain on the stack (`rest` is universally quantified and
untouched). -/
theorem runLoop_capture_failure_short_circuits :
    (∀ (env : Env) (fuel : Nat) (st : RState) (a b : Node) (rel : RefRelation)
        (rest : List StackItem) (l : Option LastInfo) (s m : String) (stE : RState),
      RefTestImplementation.get_hash env st a.url a.timeout = (stE, .err s m) →
      RefTestImplementation.runLoop env (fuel + 1) st (((a, b), rel) :: rest) l =
        (.dict ⟨s, some m, none⟩, stE, l)) ∧
    (∀ (env : Env) (fuel : Nat) (st : RState) (a b : Node) (rel : RefRelation)
        (rest : List StackItem) (l : Option LastInfo) (ha : String)
        (sa : Option String) (st1 : RState) (s m : String) (stE : RState),
      RefTestImplementation.get_hash env st a.url a.timeout = (st1, .ok ha sa) →
      RefTestImplementation.get_hash env st1 b.url b.timeout = (stE, .err s m) →
      RefTestImplementation.runLoop env (fuel + 1) st (((a, b), rel) :: rest) l =
        (.dict ⟨s, some m, none⟩, stE, l)) := by
  constructor
  · intro env fuel st a b rel rest l s m stE h
    simp only [RefTestImplementation.runLoop, h]
  · intro env fuel st a b rel rest l ha sa st1 s m stE h1 h2
    simp only [RefTestImplementation.runLoop, h1, h2]

/-- Witness for C4: a concrete failing capture returns the TIMEOUT verdict
at once even though another candidate pair is still on the stack. -/
theorem runLoop_capture_failure_short_circuits_witness :
    RefTestImplementation.runLoop envTimeout 1 rstEmpty
      [((testEqB, nodeB), .eq), ((nodeB, nodeB), .ne)] none =
      (.dict ⟨"EXTERNAL-TIMEOUT", some "boom", none⟩,
       ⟨[], [], [], [("a", 1)]⟩, none) :=
  runLoop_capture_failure_short_circuits.1 envTimeout 0 rstEmpty testEqB nodeB
    .eq [((nodeB, nodeB), .ne)] none "EXTERNAL-TIMEOUT" "boom"
    ⟨[], [], [], [("a", 1)]⟩ rfl

/-- C9: an exception escaping `do_test` is converted, not propagated: the
reported status is the exception's `status` attribute when present and
valid for the test's result type and `ERROR` otherwise; the message is the
exception's own message (followed by a newline when non-empty) concatenated
with the formatted stack trace; and the `Stop` sentinel is returned
verbatim with no `test_ended` notification. -/
theorem executor_run_test_exception_normalisation :
    ∀ (test : TestSpecM) (e : ExcM),
    TestExecutor.run_test test (.exc e) =
      .ended (⟨(match e.status with
                | some s => if s ∈ test.statuses then s else "ERROR"
                | none => "ERROR"),
               some ((if e.message = "" then "" else e.message ++ "\n") ++ e.trace)⟩,
              []) ∧
    TestExecutor.run_test test .stop = .stopped := by
  intro test e
  exact ⟨rfl, rfl⟩

/-- An environment whose captures return fresh bytes `"new"` and whose
digest prefixes an `H`, so the re-captured digest differs from a stale
cached hash. -/
def envNewShot : Env := ⟨fun _ _ => .success "new", fun s => "H" ++ s, 1⟩

/-- A node whose url is cached. -/
def nodeU : Node := .mk "u" 3 []

/-- A state whose cache holds `(oldH, None)` for `"u"`: `oldH` is not the
digest `envNewShot` assigns to the re-captured bytes. -/
def stCachedOld : RState := ⟨[("u", ("oldH", none))], [], [], []⟩

/-- A second cached state used by the amended claim's witness. -/
def stCachedTwo : RState := ⟨[("v", ("hv", none)), ("u", ("oldH", none))], [], [], []⟩

/-- C6 counterexample: the claim says `retake_screenshot` replaces the
cache entry's artifact slot only when the re-captured content's signature
matches the signature on file, surfacing a mismatch as an internal
inconsistency.  On this input the re-captured bytes digest to `Hnew`,
which differs from the cached `oldH`, yet the call succeeds and the
artifact slot is replaced anyway (keeping the stale hash): no comparison
is performed and nothing surfaces. -/
theorem retake_screenshot_mismatch_counterexample :
    RefTestImplementation.retake_screenshot envNewShot stCachedOld nodeU =
      (⟨[("u", ("oldH", some "new"))], [], [], [("u", 3)]⟩, .ok "new") ∧
    envNewShot.sha1hex "new" ≠ "oldH" :=
  ⟨rfl, by decide⟩

/-- C6 amended: `retake_screenshot`, called for a URL whose signature is
cached, re-captures and unconditionally replaces the entry's artifact slot
while keeping the previously stored signature — no signature comparison is
performed, so a mismatching re-capture silently updates the artifact (the
hypotheses place no constraint relating `env.sha1hex data` to the stored
hash `h`).  A capture failure leaves the cache unchanged and returns the
failure. -/
theorem retake_screenshot_unconditional_replace :
    (∀ (env : Env) (st : RState) (node : Node) (h : String)
        (s0 : Option String) (data : String),
      lookupCache st.cache node.url = some (h, s0) →
      env.screenshot node.url (node.timeout * env.timeoutMultiplier) = .success data →
      RefTestImplementation.retake_screenshot env st node =
        ({ st with
            cache := insertCache st.cache node.url (h, some data),
            calls := st.calls ++ [(node.url, node.timeout * env.timeoutMultiplier)] },
         .ok data)) ∧
    (∀ (env : Env) (st : RState) (node : Node) (s m : String),
      env.screenshot node.url (node.timeout * env.timeoutMultiplier) = .failure s m →
      RefTestImplementation.retake_screenshot env st node =
        ({ st with calls := st.calls ++ [(node.url, node.timeout * env.timeoutMultiplier)] },
         .fail s m)) := by
  constructor
  · intro env st node h s0 data hl hs
    unfold RefTestImplementation.retake_screenshot
    simp only [hl, hs]
  · intro env st node s m hs
    unfold RefTestImplementation.retake_screenshot
    simp only [hs]

/-- Witness for the amended C6: concrete unconditional replacement in a
cache with a second, untouched entry. -/
theorem retake_screenshot_unconditional_replace_witness :
    RefTestImplementation.retake_screenshot envNewShot stCachedTwo nodeU =
      (⟨[("v", ("hv", none)), ("u", ("oldH", some "new"))], [], [], [("u", 3)]⟩,
       .ok "new") :=
  retake_screenshot_unconditional_replace.1 envNewShot stCachedTwo nodeU
    "oldH" none "new" rfl rfl

/-- C3: two `get_hash` calls for the same uncached URL capture exactly once.
The first call appends one entry to the ghost capture-call log, returns the
digest together with the freshly captured screenshot, and persists only the
digest (artifact slot absent); the second call returns the cached
`(digest, none)` with the call log and cache unchanged. -/
theorem get_hash_caches_single_capture :
    ∀ (env : Env) (st : RState) (url : String) (t1 t2 : Nat) (shot : String),
    lookupCache st.cache url = none →
    env.screenshot url (t1 * env.timeoutMultiplier) = .success shot →
    ∃ st1 st2,
      RefTestImplementation.get_hash env st url t1 =
        (st1, .ok (env.sha1hex shot) (some shot)) ∧
      st1.calls = st.calls ++ [(url, t1 * env.timeoutMultiplier)] ∧
      lookupCache st1.cache url = some (env.sha1hex shot, none) ∧
      RefTestImplementation.get_hash env st1 url t2 =
        (st2, .ok (env.sha1hex shot) none) ∧
      st2.calls = st1.calls ∧ st2.cache = st1.cache := by
  intro env st url t1 t2 shot hl hs
  have h1 := RefTestImplementation.get_hash_miss_success env st url t1 shot hl hs
  have hins : lookupCache (insertCache st.cache url (env.sha1hex shot, none)) url =
      some (env.sha1hex shot, none) := by
    rw [lookupCache_insertCache]
    simp
  have h2 := RefTestImplementation.get_hash_hit env
    ⟨insertCache st.cache url (env.sha1hex shot, none),
     st.message ++ [.capture url (env.sha1hex shot)],
     st.resolved ++ [(url, env.sha1hex shot)],
     st.calls ++ [(url, t1 * env.timeoutMultiplier)]⟩
    url t2 (env.sha1hex shot) none hins
  exact ⟨_, _, h1, rfl, hins, h2, rfl, rfl⟩

/-- Witness for C3: a concrete pair of calls for the same URL. -/
theorem get_hash_caches_single_capture_witness :
    ∃ st1 st2,
      RefTestImplementation.get_hash envByUrl rstEmpty "x" 2 =
        (st1, .ok (envByUrl.sha1hex "Dx") (some "Dx")) ∧
      st1.calls = rstEmpty.calls ++ [("x", 2 * envByUrl.timeoutMultiplier)] ∧
      lookupCache st1.cache "x" = some (envByUrl.sha1hex "Dx", none) ∧
      RefTestImplementation.get_hash envByUrl st1 "x" 7 =
        (st2, .ok (envByUrl.sha1hex "Dx") none) ∧
      st2.calls = st1.calls ∧ st2.cache = st1.cache :=
  get_hash_caches_single_capture envByUrl rstEmpty "x" 2 7 "Dx" rfl rfl

/-- Evaluation of the subtest list comprehension when every subtest status
is one of the four known codes. -/
theorem convertSubtests_ok :
    ∀ (l : List RawSubtest), (∀ s ∈ l, s.status < 4) →
    convertSubtests l = some (l.map (fun s =>
      ⟨s.name,
       (if s.status = 0 then "PASS" else if s.status = 1 then "FAIL"
        else if s.status = 2 then "TIMEOUT" else "NOTRUN"),
       s.message⟩)) := by
  intro l
  induction l with
  | nil => intro _; rfl
  | cons s rest ih =>
      intro h
      have hs : s.status < 4 := h s (List.mem_cons_self s rest)
      have hrest := ih (fun x hx => h x (List.mem_cons_of_mem _ hx))
      have hcode : test_codes s.status =
          some (if s.status = 0 then "PASS" else if s.status = 1 then "FAIL"
                else if s.status = 2 then "TIMEOUT" else "NOTRUN") := by
        have h4 : s.status = 0 ∨ s.status = 1 ∨ s.status = 2 ∨ s.status = 3 := by
          omega
        rcases h4 with h0 | h0 | h0 | h0 <;> simp [test_codes, h0]
      simp only [convertSubtests, hcode, hrest, List.map_cons]

/-- C8: the structured-result converter rejects a payload whose `test`
field differs from the test's url with the formatted `AssertionError`
(fatal consistency error), and otherwise maps overall status 0/1/2 to
OK/ERROR/TIMEOUT and each subtest status 0/1/2/3 to
PASS/FAIL/TIMEOUT/NOTRUN, preserving declared names and messages. -/
theorem testharness_converter_spec :
    ∀ (test : THTest) (raw : RawResult),
    (raw.test ≠ test.url →
      testharness_result_converter test raw =
        .error (.assertionError
          ("Got results from " ++ raw.test ++ ", expected " ++ test.url))) ∧
    (raw.test = test.url → raw.status < 3 → (∀ s ∈ raw.tests, s.status < 4) →
      testharness_result_converter test raw =
        .ok (⟨(if raw.status = 0 then "OK"
               else if raw.status = 1 then "ERROR" else "TIMEOUT"),
              raw.message⟩,
             raw.tests.map (fun s =>
               ⟨s.name,
                (if s.status = 0 then "PASS" else if s.status = 1 then "FAIL"
                 else if s.status = 2 then "TIMEOUT" else "NOTRUN"),
                s.message⟩))) := by
  intro test raw
  constructor
  · intro hne
    unfold testharness_result_converter
    rw [if_neg hne]
  · intro heq h3 h4
    unfold testharness_result_converter
    rw [if_pos heq]
    have hh : harness_codes raw.status =
        some (if raw.status = 0 then "OK"
              else if raw.status = 1 then "ERROR" else "TIMEOUT") := by
      have h0 : raw.status = 0 ∨ raw.status = 1 ∨ raw.status = 2 := by omega
      rcases h0 with h0 | h0 | h0 <;> simp [harness_codes, h0]
    simp only [hh, convertSubtests_ok raw.tests h4]

/-- Witness for C8: the spec's own example — target `x`, overall status 0,
one subtest `{s1, 1, boom}` — converts to overall OK with one sub-result
FAIL named `s1` carrying `boom`. -/
theorem testharness_converter_spec_witness :
    testharness_result_converter ⟨"x"⟩ ⟨"x", 0, none, [⟨"s1", 1, some "boom"⟩]⟩ =
      .ok (⟨"OK", none⟩, [⟨"s1", "FAIL", some "boom"⟩]) :=
  (testharness_converter_spec ⟨"x"⟩ ⟨"x", 0, none, [⟨"s1", 1, some "boom"⟩]⟩).2
    rfl (by decide) (by decide)

/-- If the first-declared chain from `(a, b, rel)` holds end-to-end
(`chainRun` succeeds), the search loop started at that pair returns PASS
with exactly the chain's final state, for any stack of untried sibling
candidates `rest` below the pair: no sibling is resolved or compared (all
cache, message and capture-call effects are the chain's own). -/
theorem runLoop_of_chainRun (env : Env) :
    ∀ (fuel : Nat) (st : RState) (a b : Node) (rel : RefRelation)
      (rest : List StackItem) (l : Option LastInfo) (st' : RState),
    RefTestImplementation.chainRun env fuel st a b rel = some st' →
    ∃ l', RefTestImplementation.runLoop env fuel st (((a, b), rel) :: rest) l =
      (.dict ⟨"PASS", none, none⟩, st', some l') := by
  intro fuel
  induction fuel with
  | zero =>
      intro st a b rel rest l st' h
      simp [RefTestImplementation.chainRun] at h
  | succ fuel ih =>
      intro st a b rel rest l st' h
      rw [RefTestImplementation.chainRun] at h
      rcases hga : RefTestImplementation.get_hash env st a.url a.timeout with ⟨st1, r1⟩
      rw [hga] at h
      cases r1 with
      | err s m => simp at h
      | ok ha sa =>
          simp only [] at h
          rcases hgb : RefTestImplementation.get_hash env st1 b.url b.timeout with ⟨st2, r2⟩
          rw [hgb] at h
          cases r2 with
          | err s m => simp at h
          | ok hb sb =>
              simp only [] at h
              rcases hip : RefTestImplementation.is_pass st2 ha hb rel with ⟨st3, p⟩
              rw [hip] at h
              cases p with
              | false => simp at h
              | true =>
                  simp only [] at h
                  cases hrefs : b.references with
                  | nil =>
                      rw [hrefs] at h
                      simp only [Option.some.injEq] at h
                      subst h
                      refine ⟨⟨a, b, sa, sb, rel⟩, ?_⟩
                      simp only [RefTestImplementation.runLoop, hga, hgb, hip, hrefs]
                  | cons hd tl =>
                      obtain ⟨c, rel2⟩ := hd
                      rw [hrefs] at h
                      simp only [] at h
                      obtain ⟨l', hl'⟩ := ih st3 b c rel2
                        (tl.map (fun it => ((b, it.1), it.2)) ++ rest)
                        (some ⟨a, b, sa, sb, rel⟩) st' h
                      refine ⟨l', ?_⟩
                      simp only [RefTestImplementation.runLoop, hga, hgb, hip, hrefs,
                        List.map_cons, List.cons_append]
                      exact hl'

/-- C1: for a test whose first-declared top-level candidate chain holds
end-to-end (the stateful `chainRun` hypothesis), `run_test` returns PASS
immediately, and its entire effect (final cache, message log and ghost
capture-call log) is the chain's own `st'` — so no later sibling candidate
is resolved or compared.  The stack is seeded so the first-declared
candidate `(b, rel)` is popped first; `rest` (the later siblings) is
arbitrary and untouched. -/
theorem run_test_first_chain_short_circuit :
    ∀ (env : Env) (fuel : Nat) (st : RState) (test b : Node) (rel : RefRelation)
      (rest : List (Node × RefRelation)) (st' : RState),
    test.references = (b, rel) :: rest →
    RefTestImplementation.chainRun env fuel
      { st with message := [], resolved := [] } test b rel = some st' →
    ∃ l', RefTestImplementation.run_test env fuel st test =
      (.dict ⟨"PASS", none, none⟩, st', some l') := by
  intro env fuel st test b rel rest st' href hchain
  unfold RefTestImplementation.run_test
  rw [href]
  simp only [List.map_cons]
  exact runLoop_of_chainRun env fuel _ test b rel _ none st' hchain

/-- The spec's worked example: `T` references `(A, ==)`, `A` references
`(B, !=)`; `T` and `A` render alike, `B` differs. -/
def nodeBDeep : Node := .mk "B" 1 []

/-- Middle node of the worked example. -/
def nodeADeep : Node := .mk "A" 1 [(nodeBDeep, .ne)]

/-- Root test of the worked example. -/
def testTDeep : Node := .mk "T" 1 [(nodeADeep, .eq)]

/-- Captures for the worked example: `B` renders `two`, everything else
renders `one`; identity digest. -/
def envChain : Env := ⟨fun u _ => .success (if u = "B" then "two" else "one"), id, 1⟩

/-- Witness for C1: the worked example passes, returning PASS with the
chain's own final state. -/
theorem run_test_first_chain_short_circuit_witness :
    ∃ st' l', RefTestImplementation.run_test envChain 2 rstEmpty testTDeep =
      (.dict ⟨"PASS", none, none⟩, st', some l') :=
  ⟨_, run_test_first_chain_short_circuit envChain 2 rstEmpty testTDeep nodeADeep
    .eq [] _ rfl rfl⟩

namespace RefTestImplementation

/-- `is_pass` only appends the testing line to the message log. -/
theorem is_pass_state {st st' : RState} {lhs rhs : String} {rel : RefRelation}
    {p : Bool} (h : is_pass st lhs rhs rel = (st', p)) :
    st' = { st with message := st.message ++ [.testing lhs rhs rel] } := by
  unfold is_pass at h
  injection h with h1 h2
  exact h1.symm

/-- `get_hash` preserves the cache invariant: it only ever inserts the
digest of a screenshot it just captured successfully. -/
theorem get_hash_cacheOK {env : Env} {st st' : RState} {url : String}
    {t : Nat} {r : GetHashResult}
    (hok : CacheOK env st.cache) (h : get_hash env st url t = (st', r)) :
    CacheOK env st'.cache := by
  cases r with
  | err s m =>
      obtain ⟨hc, -, -, -, -⟩ := get_hash_err h
      rw [hc]; exact hok
  | ok hh shot =>
      rcases get_hash_ok_cache h with ⟨hc, -⟩ | ⟨data, hs, hhh, -, hc, -⟩
      · rw [hc]; exact hok
      · rw [hc]
        intro u h0 s0 hl
        rw [lookupCache_insertCache] at hl
        by_cases hu : url = u
        · rw [if_pos hu] at hl
          simp only [Option.some.injEq, Prod.mk.injEq] at hl
          obtain ⟨hl1, -⟩ := hl
          subst hu
          exact ⟨t * env.timeoutMultiplier, data, hs, by rw [← hl1, hhh]⟩
        · rw [if_neg hu] at hl
          exact hok u h0 s0 hl

/-- `retake_screenshot` preserves the cache invariant: on success it keeps
the already-justified stored hash and only replaces the artifact slot. -/
theorem retake_cacheOK {env : Env} {st st' : RState} {node : Node}
    {r : RetakeResult}
    (hok : CacheOK env st.cache) (h : retake_screenshot env st node = (st', r)) :
    CacheOK env st'.cache := by
  obtain ⟨-, -, hcase⟩ := retake_screenshot_cases h
  rcases hcase with ⟨s, m, -, hc, -⟩ | ⟨-, hc⟩ | ⟨data, h0, s0, -, hs, hl, hc⟩
  · rw [hc]; exact hok
  · rw [hc]; exact hok
  · rw [hc]
    intro u hh ss hlu
    rw [lookupCache_insertCache] at hlu
    by_cases hu : node.url = u
    · rw [if_pos hu] at hlu
      simp only [Option.some.injEq, Prod.mk.injEq] at hlu
      obtain ⟨hl1, -⟩ := hlu
      obtain ⟨t0, d0, hsd, hhd⟩ := hok node.url h0 s0 hl
      subst hu
      exact ⟨t0, d0, hsd, by rw [← hl1]; exact hhd⟩
    · rw [if_neg hu] at hlu
      exact hok u hh ss hlu

/-- `upgradeSlot` preserves the cache invariant. -/
theorem upgradeSlot_cacheOK {env : Env} {st st' : RState} {node : Node}
    {shot : Option String} {u : UpSlot}
    (hok : CacheOK env st.cache) (h : upgradeSlot env st node shot = (st', u)) :
    CacheOK env st'.cache := by
  unfold upgradeSlot at h
  cases shot with
  | some s =>
      injection h with h1 h2
      rw [← h1]; exact hok
  | none =>
      rcases hr : retake_screenshot env st node with ⟨str, rr⟩
      rw [hr] at h
      cases rr <;>
        · simp only [] at h
          injection h with h1 h2
          rw [← h1]
          exact retake_cacheOK hok hr

/-- `failPath` preserves the cache invariant. -/
theorem failPath_cacheOK {env : Env} {st stF : RState} {l0 : LastInfo}
    {res : RunResult} {lF : Option LastInfo}
    (hok : CacheOK env st.cache) (h : failPath env st l0 = (res, stF, lF)) :
    CacheOK env stF.cache := by
  unfold failPath at h
  rcases h0 : upgradeSlot env st l0.nodeA l0.shot0 with ⟨st1, u1⟩
  rw [h0] at h
  have hok1 := upgradeSlot_cacheOK hok h0
  cases u1 with
  | keyErr =>
      simp only [] at h
      simp only [Prod.mk.injEq] at h
      obtain ⟨-, h2, -⟩ := h
      rw [← h2]; exact hok1
  | got sh0 =>
      simp only [] at h
      rcases h1 : upgradeSlot env st1 l0.nodeB l0.shot1 with ⟨st2, u2⟩
      rw [h1] at h
      have hok2 := upgradeSlot_cacheOK hok1 h1
      cases u2 with
      | keyErr =>
          simp only [Prod.mk.injEq] at h
          obtain ⟨-, h2, -⟩ := h
          rw [← h2]; exact hok2
      | got sh1 =>
          simp only [Prod.mk.injEq] at h
          obtain ⟨-, h2, -⟩ := h
          rw [← h2]; exact hok2

/-- The whole search loop preserves the cache invariant. -/
theorem runLoop_cacheOK (env : Env) :
    ∀ (fuel : Nat) (st : RState) (stack : List StackItem) (l : Option LastInfo)
      (res : RunResult) (stF : RState) (lF : Option LastInfo),
    CacheOK env st.cache →
    runLoop env fuel st stack l = (res, stF, lF) →
    CacheOK env stF.cache := by
  intro fuel
  induction fuel with
  | zero =>
      intro st stack l res stF lF hok h
      cases stack with
      | nil =>
          cases l with
          | none =>
              simp only [runLoop, Prod.mk.injEq] at h
              obtain ⟨-, h2, -⟩ := h
              rw [← h2]; exact hok
          | some l0 =>
              simp only [runLoop] at h
              exact failPath_cacheOK hok h
      | cons it ss =>
          simp only [runLoop, Prod.mk.injEq] at h
          obtain ⟨-, h2, -⟩ := h
          rw [← h2]; exact hok
  | succ fuel ih =>
      intro st stack l res stF lF hok h
      cases stack with
      | nil =>
          cases l with
          | none =>
              simp only [runLoop, Prod.mk.injEq] at h
              obtain ⟨-, h2, -⟩ := h
              rw [← h2]; exact hok
          | some l0 =>
              simp only [runLoop] at h
              exact failPath_cacheOK hok h
      | cons it ss =>
          obtain ⟨⟨a, b⟩, rel⟩ := it
          rw [runLoop] at h
          rcases hga : get_hash env st a.url a.timeout with ⟨st1, r1⟩
          rw [hga] at h
          have hok1 := get_hash_cacheOK hok hga
          cases r1 with
          | err s m =>
              simp only [Prod.mk.injEq] at h
              obtain ⟨-, h2, -⟩ := h
              rw [← h2]; exact hok1
          | ok ha sa =>
              simp only [] at h
              rcases hgb : get_hash env st1 b.url b.timeout with ⟨st2, r2⟩
              rw [hgb] at h
              have hok2 := get_hash_cacheOK hok1 hgb
              cases r2 with
              | err s m =>
                  simp only [Prod.mk.injEq] at h
                  obtain ⟨-, h2, -⟩ := h
                  rw [← h2]; exact hok2
              | ok hb sb =>
                  simp only [] at h
                  rcases hip : is_pass st2 ha hb rel with ⟨st3, p⟩
                  rw [hip] at h
                  have hok3 : CacheOK env st3.cache := by
                    rw [is_pass_state hip]
                    exact hok2
                  cases p with
                  | true =>
                      simp only [] at h
                      cases hrefs : b.references with
                      | nil =>
                          rw [hrefs] at h
                          simp only [Prod.mk.injEq] at h
                          obtain ⟨-, h2, -⟩ := h
                          rw [← h2]; exact hok3
                      | cons hd tl =>
                          rw [hrefs] at h
                          simp only [] at h
                          exact ih _ _ _ _ _ _ hok3 h
                  | false =>
                      simp only [] at h
                      exact ih _ _ _ _ _ _ hok3 h

end RefTestImplementation

/-- C5: failures are never cached.  A failed capture returns the error to
the caller with the cache (and message log) unchanged, and the invariant
"every stored entry's signature comes from a successful capture"
(`CacheOK`) is preserved by every cache operation — `get_hash`,
`retake_screenshot` — and hence by any sequence of them, including a whole
`run_test` search loop. -/
theorem cache_never_stores_failed_captures :
    (∀ (env : Env) (st : RState) (url : String) (t : Nat) (s m : String)
        (stE : RState),
      RefTestImplementation.get_hash env st url t = (stE, .err s m) →
      stE.cache = st.cache ∧ stE.message = st.message) ∧
    (∀ (env : Env) (st stE : RState) (url : String) (t : Nat)
        (r : GetHashResult),
      CacheOK env st.cache →
      RefTestImplementation.get_hash env st url t = (stE, r) →
      CacheOK env stE.cache) ∧
    (∀ (env : Env) (st stE : RState) (node : Node)
        (r : RefTestImplementation.RetakeResult),
      CacheOK env st.cache →
      RefTestImplementation.retake_screenshot env st node = (stE, r) →
      CacheOK env stE.cache) ∧
    (∀ (env : Env) (fuel : Nat) (st : RState) (stack : List StackItem)
        (l lF : Option LastInfo) (res : RunResult) (stF : RState),
      CacheOK env st.cache →
      RefTestImplementation.runLoop env fuel st stack l = (res, stF, lF) →
      CacheOK env stF.cache) := by
  refine ⟨?_, ?_, ?_, ?_⟩
  · intro env st url t s m stE h
    obtain ⟨hc, hm, -, -, -⟩ := RefTestImplementation.get_hash_err h
    exact ⟨hc, hm⟩
  · intro env st stE url t r hok h
    exact RefTestImplementation.get_hash_cacheOK hok h
  · intro env st stE node r hok h
    exact RefTestImplementation.retake_cacheOK hok h
  · intro env fuel st stack l lF res stF hok h
    exact RefTestImplementation.runLoop_cacheOK env fuel st stack l res stF lF hok h

/-- Witness for C5: a concrete full loop run from an empty cache leaves the
cache satisfying the invariant. -/
theorem cache_never_stores_failed_captures_witness :
    ∃ (res : RunResult) (stF : RState) (lF : Option LastInfo),
      RefTestImplementation.runLoop envByUrl 5 rstEmpty
        [((testEqB, nodeB), .eq)] none = (res, stF, lF) ∧
      CacheOK envByUrl stF.cache :=
  ⟨_, _, _, rfl,
    cache_never_stores_failed_captures.2.2.2 envByUrl 5 rstEmpty
      [((testEqB, nodeB), .eq)] none _ _ _
      (fun _ _ _ hl => Option.noConfusion hl) rfl⟩

namespace RefTestImplementation

/-- `failPath` produces either the `KeyError` or a FAIL dict that carries a
message and the two-url diagnostic payload. -/
theorem failPath_shape {env : Env} {st stF : RState} {l0 : LastInfo}
    {res : RunResult} {lF : Option LastInfo}
    (h : failPath env st l0 = (res, stF, lF)) :
    res = .keyError ∨ ∃ msg ld, res = .dict ⟨"FAIL", some msg, some ld⟩ := by
  unfold failPath at h
  rcases h0 : upgradeSlot env st l0.nodeA l0.shot0 with ⟨st1, u1⟩
  rw [h0] at h
  cases u1 with
  | keyErr =>
      simp only [Prod.mk.injEq] at h
      exact Or.inl h.1.symm
  | got sh0 =>
      simp only [] at h
      rcases h1 : upgradeSlot env st1 l0.nodeB l0.shot1 with ⟨st2, u2⟩
      rw [h1] at h
      cases u2 with
      | keyErr =>
          simp only [Prod.mk.injEq] at h
          exact Or.inl h.1.symm
      | got sh1 =>
          simp only [Prod.mk.injEq] at h
          exact Or.inr ⟨_, _, h.1.symm⟩

end RefTestImplementation

/-- C7 amended: classification of every result of the search loop.  A
returned verdict is either the PASS dict — which carries no relation and no
URLs (`message` and `extra` both absent) — or a FAIL dict, which always
carries a message and the diagnostic payload with a relation and exactly
two URLs, or a capture-failure dict echoing a failing screenshot call's
status/message with no payload; the remaining constructors model the
raised `NameError`/`KeyError` and fuel exhaustion.  (The original claim —
that PASS also carries a relation and two URLs — is refuted by
`verdict_payload_counterexample`.) -/
theorem runLoop_verdict_shape :
    ∀ (env : Env) (fuel : Nat) (st : RState) (stack : List StackItem)
      (l : Option LastInfo) (res : RunResult) (stF : RState)
      (lF : Option LastInfo),
    RefTestImplementation.runLoop env fuel st stack l = (res, stF, lF) →
    res = .fuelOut ∨ res = .nameError ∨ res = .keyError ∨
    res = .dict ⟨"PASS", none, none⟩ ∨
    (∃ msg ld, res = .dict ⟨"FAIL", some msg, some ld⟩) ∨
    (∃ s m u t, res = .dict ⟨s, some m, none⟩ ∧
      env.screenshot u t = .failure s m) := by
  intro env fuel
  induction fuel with
  | zero =>
      intro st stack l res stF lF h
      cases stack with
      | nil =>
          cases l with
          | none =>
              simp only [RefTestImplementation.runLoop, Prod.mk.injEq] at h
              exact Or.inr (Or.inl h.1.symm)
          | some l0 =>
              simp only [RefTestImplementation.runLoop] at h
              rcases RefTestImplementation.failPath_shape h with h1 | ⟨msg, ld, h1⟩
              · exact Or.inr (Or.inr (Or.inl h1))
              · exact Or.inr (Or.inr (Or.inr (Or.inr (Or.inl ⟨msg, ld, h1⟩))))
      | cons it ss =>
          simp only [RefTestImplementation.runLoop, Prod.mk.injEq] at h
          exact Or.inl h.1.symm
  | succ fuel ih =>
      intro st stack l res stF lF h
      cases stack with
      | nil =>
          cases l with
          | none =>
              simp only [RefTestImplementation.runLoop, Prod.mk.injEq] at h
              exact Or.inr (Or.inl h.1.symm)
          | some l0 =>
              simp only [RefTestImplementation.runLoop] at h
              rcases RefTestImplementation.failPath_shape h with h1 | ⟨msg, ld, h1⟩
              · exact Or.inr (Or.inr (Or.inl h1))
              · exact Or.inr (Or.inr (Or.inr (Or.inr (Or.inl ⟨msg, ld, h1⟩))))
      | cons it ss =>
          obtain ⟨⟨a, b⟩, rel⟩ := it
          rw [RefTestImplementation.runLoop] at h
          rcases hga : RefTestImplementation.get_hash env st a.url a.timeout
            with ⟨st1, r1⟩
          rw [hga] at h
          cases r1 with
          | err s m =>
              obtain ⟨-, -, -, hs, -⟩ := RefTestImplementation.get_hash_err hga
              simp only [Prod.mk.injEq] at h
              exact Or.inr (Or.inr (Or.inr (Or.inr (Or.inr
                ⟨s, m, a.url, a.timeout * env.timeoutMultiplier, h.1.symm, hs⟩))))
          | ok ha sa =>
              simp only [] at h
              rcases hgb : RefTestImplementation.get_hash env st1 b.url b.timeout
                with ⟨st2, r2⟩
              rw [hgb] at h
              cases r2 with
              | err s m =>
                  obtain ⟨-, -, -, hs, -⟩ := RefTestImplementation.get_hash_err hgb
                  simp only [Prod.mk.injEq] at h
                  exact Or.inr (Or.inr (Or.inr (Or.inr (Or.inr
                    ⟨s, m, b.url, b.timeout * env.timeoutMultiplier, h.1.symm, hs⟩))))
              | ok hb sb =>
                  simp only [] at h
                  rcases hip : RefTestImplementation.is_pass st2 ha hb rel
                    with ⟨st3, p⟩
                  rw [hip] at h
                  cases p with
                  | true =>
                      simp only [] at h
                      cases hrefs : b.references with
                      | nil =>
                          rw [hrefs] at h
                          simp only [Prod.mk.injEq] at h
                          exact Or.inr (Or.inr (Or.inr (Or.inl h.1.symm)))
                      | cons hd tl =>
                          rw [hrefs] at h
                          simp only [] at h
                          exact ih _ _ _ _ _ _ h
                  | false =>
                      simp only [] at h
                      exact ih _ _ _ _ _ _ h

/-- Witness for the amended C7 at a concrete passing run. -/
theorem runLoop_verdict_shape_witness :
    ∃ (res : RunResult) (stF : RState) (lF : Option LastInfo),
      RefTestImplementation.runLoop envSame 2 rstEmpty
        [((testEqB, nodeB), .eq)] none = (res, stF, lF) ∧
      (res = .fuelOut ∨ res = .nameError ∨ res = .keyError ∨
       res = .dict ⟨"PASS", none, none⟩ ∨
       (∃ msg ld, res = .dict ⟨"FAIL", some msg, some ld⟩) ∨
       (∃ s m u t, res = .dict ⟨s, some m, none⟩ ∧
         envSame.screenshot u t = .failure s m)) :=
  ⟨_, _, _, rfl,
    runLoop_verdict_shape envSame 2 rstEmpty [((testEqB, nodeB), .eq)]
      none _ _ _ rfl⟩

/-- C7 counterexample: the claim says every verdict other than a
capture-failure — "so both PASS and FAIL" — carries a non-null relation and
exactly two compared URLs.  On this input every capture succeeds (third
conjunct), so the returned PASS verdict is not a capture failure, yet it
carries no relation and no URLs: its `extra` payload is absent (and its
message is `None`). -/
theorem verdict_payload_counterexample :
    (RefTestImplementation.run_test envSame 2 rstEmpty testEqB).1 =
      .dict ⟨"PASS", none, none⟩ ∧
    (VerdictDict.mk "PASS" none none).extra = none ∧
    (∀ u t, envSame.screenshot u t = .success "img") :=
  ⟨rfl, rfl, fun _ _ => rfl⟩

/-- The best-effort screenshot backfill contract for one slot of the FAIL
diagnostic, from the spec: a retained raw artifact is used as-is; an absent
one is re-captured, a successful re-capture fills the slot and a failed
re-capture leaves it null. -/
def SlotSpec (env : Env) (node : Node) (shot sh : Option String) : Prop :=
  (∀ x, shot = some x → sh = some x) ∧
  (shot = none → ∀ dd,
    env.screenshot node.url (node.timeout * env.timeoutMultiplier) = .success dd →
    sh = some dd) ∧
  (shot = none → ∀ s m,
    env.screenshot node.url (node.timeout * env.timeoutMultiplier) = .failure s m →
    sh = none)

namespace RefTestImplementation

/-- A completed `upgradeSlot` satisfies the best-effort slot contract and
leaves the message and resolved logs untouched. -/
theorem upgradeSlot_slotSpec {env : Env} {st st' : RState} {node : Node}
    {shot sh : Option String}
    (h : upgradeSlot env st node shot = (st', .got sh)) :
    SlotSpec env node shot sh ∧ st'.message = st.message ∧
    st'.resolved = st.resolved := by
  unfold upgradeSlot at h
  cases shot with
  | some s =>
      injection h with h1 h2
      injection h2 with h3
      subst h1
      subst h3
      exact ⟨⟨fun x hx => hx,
              fun hno => Option.noConfusion hno,
              fun hno => Option.noConfusion hno⟩, rfl, rfl⟩
  | none =>
      rcases hr : retake_screenshot env st node with ⟨str, rr⟩
      rw [hr] at h
      cases rr with
      | ok data =>
          simp only [] at h
          injection h with h1 h2
          injection h2 with h3
          subst h1
          subst h3
          obtain ⟨hm, hres, hcase⟩ := retake_screenshot_cases hr
          rcases hcase with ⟨s2, m2, hrr, -, -⟩ | ⟨hrr, -⟩ | ⟨d2, h0, s0, hrr, hs, -, -⟩
          · exact absurd hrr (by simp)
          · exact absurd hrr (by simp)
          · injection hrr with hd2
            subst hd2
            refine ⟨⟨fun x hx => Option.noConfusion hx, ?_, ?_⟩, hm, hres⟩
            · intro _ dd hdd
              have he := hs.symm.trans hdd
              injection he with he'
              rw [he']
            · intro _ s3 m3 hfail
              exact absurd (hs.symm.trans hfail) (by simp)
      | fail s m =>
          simp only [] at h
          injection h with h1 h2
          injection h2 with h3
          subst h1
          subst h3
          obtain ⟨hm, hres, hcase⟩ := retake_screenshot_cases hr
          rcases hcase with ⟨s2, m2, hrr, -, hs⟩ | ⟨hrr, -⟩ | ⟨d2, h0, s0, hrr, -, -, -⟩
          · refine ⟨⟨fun x hx => Option.noConfusion hx, ?_, ?_⟩, hm, hres⟩
            · intro _ dd hdd
              exact absurd (hs.symm.trans hdd) (by simp)
            · intro _ s3 m3 hfail
              rfl
          · exact absurd hrr (by simp)
          · exact absurd hrr (by simp)
      | keyErr =>
          simp only [] at h
          injection h with h1 h2
          exact absurd h2 (by simp)

/-- A `failPath` run that returns a dict returns exactly the FAIL dict of
the source: status FAIL, message the newline-join of the rendered message
log, and a payload pairing the last pair's two urls with best-effort
screenshots around the relation string. -/
theorem failPath_spec {env : Env} {st stF : RState} {l0 : LastInfo}
    {d : VerdictDict} {lF : Option LastInfo}
    (h : failPath env st l0 = (.dict d, stF, lF)) :
    lF = some l0 ∧ stF.message = st.message ∧ stF.resolved = st.resolved ∧
    ∃ sh0 sh1,
      d = ⟨"FAIL", some (String.intercalate "\n" (stF.message.map Entry.render)),
           some ⟨l0.nodeA.url, sh0, l0.rel.toStr, l0.nodeB.url, sh1⟩⟩ ∧
      SlotSpec env l0.nodeA l0.shot0 sh0 ∧ SlotSpec env l0.nodeB l0.shot1 sh1 := by
  unfold failPath at h
  rcases h0 : upgradeSlot env st l0.nodeA l0.shot0 with ⟨st1, u1⟩
  rw [h0] at h
  cases u1 with
  | keyErr => simp at h
  | got sh0 =>
      simp only [] at h
      rcases h1 : upgradeSlot env st1 l0.nodeB l0.shot1 with ⟨st2, u2⟩
      rw [h1] at h
      cases u2 with
      | keyErr => simp at h
      | got sh1 =>
          simp only [Prod.mk.injEq, RunResult.dict.injEq] at h
          obtain ⟨hd, hst, hlf⟩ := h
          subst hst
          obtain ⟨hs0, hm0, hr0⟩ := upgradeSlot_slotSpec h0
          obtain ⟨hs1, hm1, hr1⟩ := upgradeSlot_slotSpec h1
          refine ⟨hlf.symm, ?_, ?_, sh0, sh1, hd.symm, hs0, hs1⟩
          · rw [hm1, hm0]
          · rw [hr1, hr0]

/-- `get_hash` preserves the message-log/resolved-log correspondence. -/
theorem msgRes_get_hash {env : Env} {st st' : RState} {url : String}
    {t : Nat} {r : GetHashResult}
    (hmr : MsgRes st) (h : get_hash env st url t = (st', r)) : MsgRes st' := by
  cases r with
  | err s m =>
      obtain ⟨-, hm, hres, -, -⟩ := get_hash_err h
      unfold MsgRes at hmr ⊢
      rw [hm, hres]
      exact hmr
  | ok hh shot =>
      obtain ⟨hm, hres⟩ := get_hash_ok_msg h
      unfold MsgRes at hmr ⊢
      rw [hm, hres, List.filterMap_append, hmr]
      simp [Entry.captureData]

/-- `is_pass` preserves the message-log/resolved-log correspondence. -/
theorem msgRes_is_pass {st st' : RState} {lhs rhs : String}
    {rel : RefRelation} {p : Bool}
    (hmr : MsgRes st) (h : is_pass st lhs rhs rel = (st', p)) : MsgRes st' := by
  rw [is_pass_state h]
  unfold MsgRes at hmr ⊢
  simp [List.filterMap_append, Entry.captureData, hmr]

end RefTestImplementation

/-- The search-loop half of C2, by induction on the fuel. -/
theorem runLoop_fail_spec (env : Env)
    (henv : ∀ u t s m, env.screenshot u t = .failure s m → s ≠ "FAIL") :
    ∀ (fuel : Nat) (st : RState) (stack : List StackItem) (l : Option LastInfo)
      (d : VerdictDict) (stF : RState) (la : LastInfo),
    MsgRes st →
    RefTestImplementation.runLoop env fuel st stack l = (.dict d, stF, some la) →
    d.status = "FAIL" →
    d.message = some (String.intercalate "\n" (stF.message.map Entry.render)) ∧
    stF.message.filterMap Entry.captureData = stF.resolved ∧
    ∃ sh0 sh1,
      d.extra = some ⟨la.nodeA.url, sh0, la.rel.toStr, la.nodeB.url, sh1⟩ ∧
      SlotSpec env la.nodeA la.shot0 sh0 ∧
      SlotSpec env la.nodeB la.shot1 sh1 := by
  intro fuel
  induction fuel with
  | zero =>
      intro st stack l d stF la hmr h hstatus
      cases stack with
      | nil =>
          cases l with
          | none => simp [RefTestImplementation.runLoop] at h
          | some l1 =>
              simp only [RefTestImplementation.runLoop] at h
              obtain ⟨hlf, hm, hres, sh0, sh1, hd, hs0, hs1⟩ :=
                RefTestImplementation.failPath_spec h
              injection hlf with hla
              subst hla
              subst hd
              refine ⟨rfl, ?_, sh0, sh1, rfl, hs0, hs1⟩
              unfold MsgRes at hmr
              rw [hm, hres]
              exact hmr
      | cons it ss => simp [RefTestImplementation.runLoop] at h
  | succ fuel ih =>
      intro st stack l d stF la hmr h hstatus
      cases stack with
      | nil =>
          cases l with
          | none => simp [RefTestImplementation.runLoop] at h
          | some l1 =>
              simp only [RefTestImplementation.runLoop] at h
              obtain ⟨hlf, hm, hres, sh0, sh1, hd, hs0, hs1⟩ :=
                RefTestImplementation.failPath_spec h
              injection hlf with hla
              subst hla
              subst hd
              refine ⟨rfl, ?_, sh0, sh1, rfl, hs0, hs1⟩
              unfold MsgRes at hmr
              rw [hm, hres]
              exact hmr
      | cons it ss =>
          obtain ⟨⟨a, b⟩, rel⟩ := it
          rw [RefTestImplementation.runLoop] at h
          rcases hga : RefTestImplementation.get_hash env st a.url a.timeout
            with ⟨st1, r1⟩
          rw [hga] at h
          cases r1 with
          | err s m =>
              obtain ⟨-, -, -, hs, -⟩ := RefTestImplementation.get_hash_err hga
              simp only [Prod.mk.injEq] at h
              obtain ⟨h1, -, -⟩ := h
              injection h1 with h1'
              subst h1'
              exact absurd hstatus (henv _ _ _ _ hs)
          | ok ha sa =>
              simp only [] at h
              rcases hgb : RefTestImplementation.get_hash env st1 b.url b.timeout
                with ⟨st2, r2⟩
              rw [hgb] at h
              cases r2 with
              | err s m =>
                  obtain ⟨-, -, -, hs, -⟩ := RefTestImplementation.get_hash_err hgb
                  simp only [Prod.mk.injEq] at h
                  obtain ⟨h1, -, -⟩ := h
                  injection h1 with h1'
                  subst h1'
                  exact absurd hstatus (henv _ _ _ _ hs)
              | ok hb sb =>
                  simp only [] at h
                  rcases hip : RefTestImplementation.is_pass st2 ha hb rel
                    with ⟨st3, p⟩
                  rw [hip] at h
                  have hmr3 : MsgRes st3 :=
                    RefTestImplementation.msgRes_is_pass
                      (RefTestImplementation.msgRes_get_hash
                        (RefTestImplementation.msgRes_get_hash hmr hga) hgb) hip
                  cases p with
                  | true =>
                      simp only [] at h
                      cases hrefs : b.references with
                      | nil =>
                          rw [hrefs] at h
                          simp only [Prod.mk.injEq] at h
                          obtain ⟨h1, -, -⟩ := h
                          injection h1 with h1'
                          subst h1'
                          exact absurd hstatus (by decide)
                      | cons hd tl =>
                          rw [hrefs] at h
                          simp only [] at h
                          exact ih _ _ _ _ _ _ hmr3 h hstatus
                  | false =>
                      simp only [] at h
                      exact ih _ _ _ _ _ _ hmr3 h hstatus

/-- C2: when no candidate chain holds and no capture fails (captures never
fail with status string FAIL, so a FAIL dict can only come from the
exhaustion path), `run_test` returns a FAIL verdict whose message is the
newline-join of the rendered message log — whose capture entries are
exactly the `(url, signature)` pairs resolved during the run, in evaluation
order (`filterMap Entry.captureData` equals the ghost `resolved` log) —
and whose extra payload is `reftest_screenshots`-shaped for the
last-evaluated pair: its two urls around the relation string, each
screenshot slot filled best-effort (retained artifact, else a successful
re-capture, else null on re-capture failure, without changing the FAIL
verdict). -/
theorem run_test_fail_diagnostics :
    ∀ (env : Env) (fuel : Nat) (st : RState) (test : Node) (d : VerdictDict)
      (stF : RState) (la : LastInfo),
    (∀ u t s m, env.screenshot u t = .failure s m → s ≠ "FAIL") →
    RefTestImplementation.run_test env fuel st test = (.dict d, stF, some la) →
    d.status = "FAIL" →
    d.message = some (String.intercalate "\n" (stF.message.map Entry.render)) ∧
    stF.message.filterMap Entry.captureData = stF.resolved ∧
    ∃ sh0 sh1,
      d.extra = some ⟨la.nodeA.url, sh0, la.rel.toStr, la.nodeB.url, sh1⟩ ∧
      SlotSpec env la.nodeA la.shot0 sh0 ∧
      SlotSpec env la.nodeB la.shot1 sh1 := by
  intro env fuel st test d stF la henv h hstatus
  have h0 : MsgRes { st with message := [], resolved := [] } := rfl
  exact runLoop_fail_spec env henv fuel _ _ none d stF la h0 h hstatus

/-- Witness for C2: a concrete exhausted search FAILs with the stated
diagnostics. -/
theorem run_test_fail_diagnostics_witness :
    ∃ (d : VerdictDict) (stF : RState) (la : LastInfo),
      RefTestImplementation.run_test envByUrl 5 rstEmpty testEqB =
        (.dict d, stF, some la) ∧
      d.status = "FAIL" ∧
      (d.message = some (String.intercalate "\n" (stF.message.map Entry.render)) ∧
       stF.message.filterMap Entry.captureData = stF.resolved ∧
       ∃ sh0 sh1,
         d.extra = some ⟨la.nodeA.url, sh0, la.rel.toStr, la.nodeB.url, sh1⟩ ∧
         SlotSpec envByUrl la.nodeA la.shot0 sh0 ∧
         SlotSpec envByUrl la.nodeB la.shot1 sh1) :=
  ⟨_, _, _, rfl, rfl,
    run_test_fail_diagnostics envByUrl 5 rstEmpty testEqB _ _ _
      (fun _ _ _ _ hc => CaptureOutcome.noConfusion hc) rfl rfl⟩
